import Mathlib

/-!
A verification development for the arcade-game core of this repository:
enemy lifecycle (EnemyCube, EnemyManager), projectile lifecycle
(ProjectileManager), coin collection (CoinManager), player jump logic
(CubePlayer.move) and input mapping (InputManager), together with the
player-health handling of the game loop (modelled from the spec, as the
orchestrator is not among the sources).

Modelling conventions:
- TypeScript `number` values are embedded exactly: health, damage and
  score values (integers per the data model, and exact in float arithmetic)
  as `Int`; times and velocities, which may be fractional, as `ℚ`.
- The Three.js scene and the cannon-es physics world are embedded as lists
  of mesh/body identifiers (`List Nat`).  `Scene.remove` / `World.removeBody`
  remove the first matching entry and are no-ops when the object is absent,
  which is exactly the `indexOf`/`splice` behaviour of both libraries; this
  is `List.erase`.
- Rendering-only data (geometry, materials, shadow flags) and the event bus
  payloads that merely mirror the state are not part of the model; event
  *emissions* that the claims count (kill-score events) are returned
  explicitly.
-/

/-- Owner tag of a projectile: `'player' | 'enemy'` in the source. -/
inductive Owner where
  | player
  | enemy
deriving DecidableEq, Repr

/-- `src/entities/EnemyCube.ts`: the fields of `EnemyCube` that the game
logic reads or writes (`body`/`mesh` are identified by their ids; `health`
starts at the configured value, default 40; `alive` starts `true`).
The AI steering fields (`facingAngle`, `size`) only feed rendering and
body velocity and are not modelled. -/
structure EnemyCube where
  bodyId : Nat
  meshId : Nat
  health : Int
  alive : Bool
deriving DecidableEq, Repr

/-- `EnemyCube.hit` (EnemyCube.ts lines 74-79):
`this.health -= damage; if (this.health <= 0 && this.alive) this.alive = false;` -/
def EnemyCube.hit (e : EnemyCube) (damage : Int) : EnemyCube :=
  let h := e.health - damage
  if h ≤ 0 ∧ e.alive = true then { e with health := h, alive := false }
  else { e with health := h }

/-- `EnemyCube.destroy` (EnemyCube.ts lines 81-84): removes the mesh from
the scene and the body from the world. -/
def EnemyCube.destroy (e : EnemyCube) (scene world : List Nat) : List Nat × List Nat :=
  (scene.erase e.meshId, world.erase e.bodyId)

/-- `src/managers/EnemyManager.ts`: the manager state relevant to enemy
lifecycle.  The `aiShootCooldown` map and the projectile manager reference
only drive enemy shooting, which mutates neither `enemies` nor any field
below, so they are omitted. -/
structure EnemyManager where
  enemies : List EnemyCube
  scene : List Nat
  world : List Nat
  lastSpawn : ℚ
  maxEnemies : Nat
  spawnIntervalSec : ℚ
deriving DecidableEq, Repr

/-- `EnemyManager.aliveCount` (lines 112-114). -/
def EnemyManager.aliveCount (s : EnemyManager) : Nat :=
  (s.enemies.filter (fun e => e.alive)).length

/-- The enemy pushed by `EnemyManager.spawnEnemy` (lines 43-55): a fresh
`EnemyCube` with the default health 40, alive, whose constructor has added
its body to the world and its mesh to the scene.  The random spawn position
only initialises the body transform and is not modelled. -/
def freshEnemy (freshBody freshMesh : Nat) : EnemyCube :=
  { bodyId := freshBody, meshId := freshMesh, health := 40, alive := true }

/-- `EnemyManager.spawnEnemy` (lines 43-55) as a state transformer:
constructs the enemy (adding body/mesh) and appends it to `enemies`. -/
def EnemyManager.spawnEnemy (s : EnemyManager) (freshBody freshMesh : Nat) :
    EnemyManager :=
  { s with
    enemies := s.enemies ++ [freshEnemy freshBody freshMesh]
    world := s.world ++ [freshBody]
    scene := s.scene ++ [freshMesh] }

/-- `EnemyManager.update` (lines 56-96) restricted to the state it mutates
in this model:
1. spawn gate: `if (now - this.lastSpawn > this.spawnIntervalSec && this.aliveCount() < this.maxEnemies) { this.spawnEnemy(); this.lastSpawn = now; }`;
2. the per-enemy AI/shooting loop (lines 64-86) mutates only body
   velocities, shoot cooldowns and the projectile manager — none of the
   state below — and is therefore omitted;
3. `for (const e of this.enemies) if (!e.alive) e.destroy(...)` (lines 88-92);
4. `this.enemies = this.enemies.filter(e => e.alive)` (line 94).
`freshBody`/`freshMesh` are the ids of the body/mesh a spawn would create. -/
def EnemyManager.update (s : EnemyManager) (now : ℚ) (freshBody freshMesh : Nat) :
    EnemyManager :=
  let s1 :=
    if now - s.lastSpawn > s.spawnIntervalSec ∧ s.aliveCount < s.maxEnemies then
      { s.spawnEnemy freshBody freshMesh with lastSpawn := now }
    else s
  let scene2 := s1.enemies.foldl
    (fun sc e => if e.alive = true then sc else sc.erase e.meshId) s1.scene
  let world2 := s1.enemies.foldl
    (fun w e => if e.alive = true then w else w.erase e.bodyId) s1.world
  { s1 with
    enemies := s1.enemies.filter (fun e => e.alive)
    scene := scene2
    world := world2 }

/-- One enemy's transformation under `EnemyManager.checkHit` (lines 97-108):
skipped when not alive (`if (!e.alive) continue`), hit when its body matches. -/
def hitOne (hitBody : Nat) (damage : Int) (e : EnemyCube) : EnemyCube :=
  if e.alive = true ∧ e.bodyId = hitBody then e.hit damage else e

/-- Whether `checkHit` emits the kill-score event (`score.updated`, 100 pts)
for enemy `e`: the enemy was alive, its body matched, and after `hit` it is
no longer alive (lines 101-104). -/
def killEmitted (hitBody : Nat) (damage : Int) (e : EnemyCube) : Bool :=
  e.alive && e.bodyId == hitBody && !(e.hit damage).alive

/-- `EnemyManager.checkHit` (lines 97-108): applies `hitOne` to every enemy
in order and returns the number of kill-score events emitted. -/
def EnemyManager.checkHit (s : EnemyManager) (hitBody : Nat) (damage : Int) :
    EnemyManager × Nat :=
  ({ s with enemies := s.enemies.map (hitOne hitBody damage) },
   (s.enemies.filter (fun e => killEmitted hitBody damage e)).length)

/-- An externally observable operation on an `EnemyManager`: a collision
report (`checkHit`) or an update pass (`update`). -/
inductive EMOp where
  | checkHit (hitBody : Nat) (damage : Int)
  | update (now : ℚ) (freshBody freshMesh : Nat)

/-- Run a sequence of operations against an `EnemyManager`. -/
def EnemyManager.run (s : EnemyManager) : List EMOp → EnemyManager
  | [] => s
  | EMOp.checkHit b d :: ops => ((s.checkHit b d).1).run ops
  | EMOp.update now fb fm :: ops => (s.update now fb fm).run ops

/-- The per-enemy alive invariant of the spec: `health <= 0 ⟺ alive == false`. -/
def enemyInvB (e : EnemyCube) : Bool :=
  decide (e.health ≤ 0) == !e.alive

/-- The whole-manager alive invariant: every tracked enemy satisfies
`health <= 0 ⟺ alive == false`. -/
def managerInvB (s : EnemyManager) : Bool :=
  s.enemies.all enemyInvB

theorem hitOne_inv (b : Nat) (d : Int) (e : EnemyCube) (h : enemyInvB e = true) :
    enemyInvB (hitOne b d e) = true := by
  unfold hitOne
  by_cases ha : e.alive = true ∧ e.bodyId = b
  · simp only [if_pos ha]
    unfold EnemyCube.hit enemyInvB
    by_cases hh : e.health - d ≤ 0 ∧ e.alive = true
    · simp [ha.1, hh.1]
    · have hno : ¬ (e.health - d ≤ 0) := fun hc => hh ⟨hc, ha.1⟩
      simp [ha.1, hno]
  · simpa [if_neg ha] using h

theorem checkHit_inv (s : EnemyManager) (b : Nat) (d : Int)
    (h : managerInvB s = true) : managerInvB (s.checkHit b d).1 = true := by
  unfold managerInvB EnemyManager.checkHit at *
  simp only [List.all_eq_true] at h ⊢
  intro e he
  simp only [List.mem_map] at he
  obtain ⟨e0, he0, rfl⟩ := he
  exact hitOne_inv b d e0 (h e0 he0)

theorem update_enemies_eq (s : EnemyManager) (now : ℚ) (fb fm : Nat) :
    (s.update now fb fm).enemies
      = s.enemies.filter (fun e => e.alive)
        ++ (if now - s.lastSpawn > s.spawnIntervalSec ∧ s.aliveCount < s.maxEnemies
            then [freshEnemy fb fm] else []) := by
  unfold EnemyManager.update
  by_cases hg : now - s.lastSpawn > s.spawnIntervalSec ∧ s.aliveCount < s.maxEnemies
  · simp [if_pos hg, EnemyManager.spawnEnemy, List.filter_append, freshEnemy]
  · simp [if_neg hg]

theorem update_inv (s : EnemyManager) (now : ℚ) (fb fm : Nat)
    (h : managerInvB s = true) : managerInvB (s.update now fb fm) = true := by
  unfold managerInvB at *
  rw [update_enemies_eq]
  simp only [List.all_eq_true] at h ⊢
  intro e he
  rcases List.mem_append.mp he with hl | hr
  · exact h e (List.mem_of_mem_filter hl)
  · by_cases hg : now - s.lastSpawn > s.spawnIntervalSec ∧ s.aliveCount < s.maxEnemies
    · rw [if_pos hg] at hr
      simp only [List.mem_singleton] at hr
      subst hr
      norm_num [enemyInvB, freshEnemy]
    · rw [if_neg hg] at hr
      simp at hr

theorem run_inv (ops : List EMOp) (s : EnemyManager)
    (h : managerInvB s = true) : managerInvB (s.run ops) = true := by
  induction ops generalizing s with
  | nil => exact h
  | cons op ops ih =>
    cases op with
    | checkHit b d => exact ih _ (checkHit_inv s b d h)
    | update now fb fm => exact ih _ (update_inv s now fb fm h)

theorem alive_inv_health_pos (e : EnemyCube) (ha : e.alive = true)
    (hi : enemyInvB e = true) : 0 < e.health := by
  unfold enemyInvB at hi
  rw [ha] at hi
  simp only [Bool.not_true, beq_iff_eq, decide_eq_false_iff_not] at hi
  omega

theorem update_all_alive (s : EnemyManager) (now : ℚ) (fb fm : Nat) :
    ((s.update now fb fm).enemies.all (fun e => e.alive)) = true := by
  rw [update_enemies_eq]
  simp only [List.all_append, Bool.and_eq_true, List.all_eq_true]
  constructor
  · intro e he
    exact (List.mem_filter.mp he).2
  · intro e he
    by_cases hg : now - s.lastSpawn > s.spawnIntervalSec ∧ s.aliveCount < s.maxEnemies
    · rw [if_pos hg] at he
      simp only [List.mem_singleton] at he
      subst he
      rfl
    · rw [if_neg hg] at he
      simp at he

theorem update_world_eq (s : EnemyManager) (now : ℚ) (fb fm : Nat) :
    (s.update now fb fm).world
      = ((if now - s.lastSpawn > s.spawnIntervalSec ∧ s.aliveCount < s.maxEnemies
          then s.enemies ++ [freshEnemy fb fm] else s.enemies).foldl
          (fun w e => if e.alive = true then w else w.erase e.bodyId)
          (if now - s.lastSpawn > s.spawnIntervalSec ∧ s.aliveCount < s.maxEnemies
           then s.world ++ [fb] else s.world)) := by
  unfold EnemyManager.update
  by_cases hg : now - s.lastSpawn > s.spawnIntervalSec ∧ s.aliveCount < s.maxEnemies
  · simp [if_pos hg, EnemyManager.spawnEnemy]
  · simp [if_neg hg]

theorem update_scene_eq (s : EnemyManager) (now : ℚ) (fb fm : Nat) :
    (s.update now fb fm).scene
      = ((if now - s.lastSpawn > s.spawnIntervalSec ∧ s.aliveCount < s.maxEnemies
          then s.enemies ++ [freshEnemy fb fm] else s.enemies).foldl
          (fun sc e => if e.alive = true then sc else sc.erase e.meshId)
          (if now - s.lastSpawn > s.spawnIntervalSec ∧ s.aliveCount < s.maxEnemies
           then s.scene ++ [fm] else s.scene)) := by
  unfold EnemyManager.update
  by_cases hg : now - s.lastSpawn > s.spawnIntervalSec ∧ s.aliveCount < s.maxEnemies
  · simp [if_pos hg, EnemyManager.spawnEnemy]
  · simp [if_neg hg]

theorem destroyFoldWorld_count_zero (id : Nat) :
    ∀ (es : List EnemyCube) (w : List Nat), w.count id = 0 →
      (es.foldl (fun w e => if e.alive = true then w else w.erase e.bodyId) w).count id
        = 0 := by
  intro es
  induction es with
  | nil =>
    intro w h
    exact h
  | cons x xs ih =>
    intro w h
    simp only [List.foldl_cons]
    apply ih
    by_cases hx : x.alive = true
    · rw [if_pos hx]
      exact h
    · rw [if_neg hx]
      have hsub := (List.erase_sublist x.bodyId w).count_le id
      omega

theorem destroyFoldWorld_not_mem (e : EnemyCube) :
    ∀ (es : List EnemyCube) (w : List Nat), e ∈ es → e.alive = false →
      w.count e.bodyId ≤ 1 →
      e.bodyId ∉ es.foldl (fun w x => if x.alive = true then w else w.erase x.bodyId) w := by
  intro es
  induction es with
  | nil =>
    intro w he
    simp at he
  | cons x xs ih =>
    intro w he hdead hcnt
    simp only [List.foldl_cons]
    rcases List.mem_cons.mp he with rfl | hxs
    · rw [if_neg (by simp [hdead])]
      intro hm
      have h0 : (w.erase e.bodyId).count e.bodyId = 0 := by
        have := List.count_erase_self e.bodyId w
        omega
      have hz := destroyFoldWorld_count_zero e.bodyId xs (w.erase e.bodyId) h0
      have hp := List.count_pos_iff.mpr hm
      omega
    · apply ih _ hxs hdead
      by_cases hx : x.alive = true
      · rw [if_pos hx]
        exact hcnt
      · rw [if_neg hx]
        have hsub := (List.erase_sublist x.bodyId w).count_le e.bodyId
        omega

theorem destroyFoldScene_count_zero (id : Nat) :
    ∀ (es : List EnemyCube) (sc : List Nat), sc.count id = 0 →
      (es.foldl (fun sc e => if e.alive = true then sc else sc.erase e.meshId) sc).count id
        = 0 := by
  intro es
  induction es with
  | nil =>
    intro sc h
    exact h
  | cons x xs ih =>
    intro sc h
    simp only [List.foldl_cons]
    apply ih
    by_cases hx : x.alive = true
    · rw [if_pos hx]
      exact h
    · rw [if_neg hx]
      have hsub := (List.erase_sublist x.meshId sc).count_le id
      omega

theorem destroyFoldScene_not_mem (e : EnemyCube) :
    ∀ (es : List EnemyCube) (sc : List Nat), e ∈ es → e.alive = false →
      sc.count e.meshId ≤ 1 →
      e.meshId ∉ es.foldl (fun sc x => if x.alive = true then sc else sc.erase x.meshId) sc := by
  intro es
  induction es with
  | nil =>
    intro sc he
    simp at he
  | cons x xs ih =>
    intro sc he hdead hcnt
    simp only [List.foldl_cons]
    rcases List.mem_cons.mp he with rfl | hxs
    · rw [if_neg (by simp [hdead])]
      intro hm
      have h0 : (sc.erase e.meshId).count e.meshId = 0 := by
        have := List.count_erase_self e.meshId sc
        omega
      have hz := destroyFoldScene_count_zero e.meshId xs (sc.erase e.meshId) h0
      have hp := List.count_pos_iff.mpr hm
      omega
    · apply ih _ hxs hdead
      by_cases hx : x.alive = true
      · rw [if_pos hx]
        exact hcnt
      · rw [if_neg hx]
        have hsub := (List.erase_sublist x.meshId sc).count_le e.meshId
        omega

/-- C1: for every enemy and every sequence of hits and update passes,
immediately after an `EnemyManager.update` pass every enemy in the active
collection satisfies `health ≤ 0 ⟺ alive = false` (and in fact is alive with
positive health); the collection after the pass is exactly the alive
survivors plus the optional fresh spawn; and every enemy whose `alive` flag
is false is destroyed in that same pass — its body is gone from the physics
world and its mesh gone from the scene (under the construction guarantees
that each body/mesh id occurs at most once in the world/scene and the
spawned ids are fresh) — so no dead entry persists past one tick. -/
theorem enemy_alive_invariant_after_update (s : EnemyManager) (ops : List EMOp)
    (now : ℚ) (fb fm : Nat) (hInv : managerInvB s = true)
    (hcnt : ((s.run ops).enemies.all (fun e =>
        e.alive || (decide ((s.run ops).world.count e.bodyId ≤ 1)
          && decide ((s.run ops).scene.count e.meshId ≤ 1)))) = true)
    (hfresh : ((s.run ops).enemies.all (fun e =>
        e.alive || (decide (e.bodyId ≠ fb) && decide (e.meshId ≠ fm)))) = true) :
    managerInvB (s.run ops) = true ∧
    (((s.run ops).update now fb fm).enemies.all
        (fun e => e.alive && enemyInvB e && decide (0 < e.health))) = true ∧
    ((s.run ops).update now fb fm).enemies
      = (s.run ops).enemies.filter (fun e => e.alive)
        ++ (if now - (s.run ops).lastSpawn > (s.run ops).spawnIntervalSec ∧
              (s.run ops).aliveCount < (s.run ops).maxEnemies
            then [freshEnemy fb fm] else []) ∧
    ((s.run ops).enemies.all (fun e =>
        e.alive || (!decide (e.bodyId ∈ ((s.run ops).update now fb fm).world)
          && !decide (e.meshId ∈ ((s.run ops).update now fb fm).scene)))) = true := by
  have h1 := run_inv ops s hInv
  refine ⟨h1, ?_, update_enemies_eq _ now fb fm, ?_⟩
  · have h2 := update_inv (s.run ops) now fb fm h1
    have h3 := update_all_alive (s.run ops) now fb fm
    unfold managerInvB at h2
    simp only [List.all_eq_true] at h2 h3 ⊢
    intro e he
    have ha := h3 e he
    have hi := h2 e he
    simp only [Bool.and_eq_true, decide_eq_true_eq]
    exact ⟨⟨ha, hi⟩, alive_inv_health_pos e ha hi⟩
  · simp only [List.all_eq_true] at hcnt hfresh ⊢
    intro e he
    by_cases hal : e.alive = true
    · simp [hal]
    · have hdead : e.alive = false := by
        simpa using hal
      have hc := hcnt e he
      have hf := hfresh e he
      rw [hdead] at hc hf
      simp only [Bool.false_or, Bool.and_eq_true, decide_eq_true_eq] at hc hf
      rw [hdead]
      simp only [Bool.false_or, Bool.and_eq_true, Bool.not_eq_true',
        decide_eq_false_iff_not]
      constructor
      · rw [update_world_eq]
        by_cases hg : now - (s.run ops).lastSpawn > (s.run ops).spawnIntervalSec ∧
            (s.run ops).aliveCount < (s.run ops).maxEnemies
        · rw [if_pos hg, if_pos hg]
          apply destroyFoldWorld_not_mem e _ _ (List.mem_append_left _ he) hdead
          rw [List.count_append]
          have h0 : List.count e.bodyId [fb] = 0 := by
            simp [List.count_cons, hf.1]
          omega
        · rw [if_neg hg, if_neg hg]
          exact destroyFoldWorld_not_mem e _ _ he hdead hc.1
      · rw [update_scene_eq]
        by_cases hg : now - (s.run ops).lastSpawn > (s.run ops).spawnIntervalSec ∧
            (s.run ops).aliveCount < (s.run ops).maxEnemies
        · rw [if_pos hg, if_pos hg]
          apply destroyFoldScene_not_mem e _ _ (List.mem_append_left _ he) hdead
          rw [List.count_append]
          have h0 : List.count e.meshId [fm] = 0 := by
            simp [List.count_cons, hf.2]
          omega
        · rw [if_neg hg, if_neg hg]
          exact destroyFoldScene_not_mem e _ _ he hdead hc.2

/-- The manager of Scenario A: a single enemy with health 40 (body id 1,
mesh id 2), the EnemyManager defaults `maxEnemies = 3`,
`spawnIntervalSec = 6`. -/
def scenarioAManager : EnemyManager :=
  { enemies := [{ bodyId := 1, meshId := 2, health := 40, alive := true }]
    scene := [2]
    world := [1]
    lastSpawn := 0
    maxEnemies := 3
    spawnIntervalSec := 6 }

/-- Two reported hits of damage 25 against the enemy's body. -/
def scenarioAOps : List EMOp :=
  [EMOp.checkHit 1 25, EMOp.checkHit 1 25]

/-- Witness for the C1 theorem at Scenario A: the hypotheses are discharged
at the concrete single-enemy manager, two hits of 25, and an update pass at
`now = 7` with fresh ids 10/11. -/
theorem enemy_alive_invariant_after_update_witness :
    managerInvB (scenarioAManager.run scenarioAOps) = true ∧
    (((scenarioAManager.run scenarioAOps).update 7 10 11).enemies.all
        (fun e => e.alive && enemyInvB e && decide (0 < e.health))) = true ∧
    ((scenarioAManager.run scenarioAOps).update 7 10 11).enemies
      = (scenarioAManager.run scenarioAOps).enemies.filter (fun e => e.alive)
        ++ (if 7 - (scenarioAManager.run scenarioAOps).lastSpawn
                > (scenarioAManager.run scenarioAOps).spawnIntervalSec ∧
              (scenarioAManager.run scenarioAOps).aliveCount
                < (scenarioAManager.run scenarioAOps).maxEnemies
            then [freshEnemy 10 11] else []) ∧
    ((scenarioAManager.run scenarioAOps).enemies.all (fun e =>
        e.alive
          || (!decide (e.bodyId ∈ ((scenarioAManager.run scenarioAOps).update 7 10 11).world)
            && !decide (e.meshId ∈ ((scenarioAManager.run scenarioAOps).update 7 10 11).scene))))
      = true :=
  enemy_alive_invariant_after_update scenarioAManager scenarioAOps 7 10 11
    (by decide) (by decide) (by decide)

/-- C3: against an enemy with health 40 and damage 25 per hit: the first
`checkHit` leaves health 15, the enemy alive, and emits no kill-score event;
the second leaves health -10, flips `alive` to false, and emits exactly one
kill-score event; a third `checkHit` against the same body is a no-op (the
non-alive enemy is skipped: health unchanged, no event). -/
theorem scenario_a_two_hits_kill_third_noop :
    ((scenarioAManager.checkHit 1 25).1.enemies
        = [{ bodyId := 1, meshId := 2, health := 15, alive := true }] ∧
      (scenarioAManager.checkHit 1 25).2 = 0) ∧
    (((scenarioAManager.checkHit 1 25).1.checkHit 1 25).1.enemies
        = [{ bodyId := 1, meshId := 2, health := -10, alive := false }] ∧
      ((scenarioAManager.checkHit 1 25).1.checkHit 1 25).2 = 1) ∧
    ((((scenarioAManager.checkHit 1 25).1.checkHit 1 25).1.checkHit 1 25).1
        = ((scenarioAManager.checkHit 1 25).1.checkHit 1 25).1 ∧
      (((scenarioAManager.checkHit 1 25).1.checkHit 1 25).1.checkHit 1 25).2 = 0) := by
  decide

theorem update_lastSpawn_eq (s : EnemyManager) (now : ℚ) (fb fm : Nat) :
    (s.update now fb fm).lastSpawn
      = if now - s.lastSpawn > s.spawnIntervalSec ∧ s.aliveCount < s.maxEnemies
        then now else s.lastSpawn := by
  unfold EnemyManager.update
  by_cases hg : now - s.lastSpawn > s.spawnIntervalSec ∧ s.aliveCount < s.maxEnemies
  · simp [if_pos hg, EnemyManager.spawnEnemy]
  · simp [if_neg hg]

/-- C4: with `maxEnemies = 5` and `spawnIntervalSec = 6`, an update pass
(1) spawns nothing while `now` is within 6 seconds of `lastSpawn`, however
far the alive population has dropped; (2) spawns nothing while the alive
population is at the cap; (3) adds at most one enemy per pass; and (4) when
it does spawn it resets `lastSpawn` to `now`, so a following pass within 6
seconds again spawns nothing — one spawn per elapsed interval, no burst
catch-up. -/
theorem spawn_timer_no_early_spawn_no_burst (s : EnemyManager) (now : ℚ)
    (fb fm : Nat) (hmax : s.maxEnemies = 5) (hint : s.spawnIntervalSec = 6) :
    (now - s.lastSpawn ≤ 6 →
      (s.update now fb fm).enemies = s.enemies.filter (fun e => e.alive) ∧
      (s.update now fb fm).lastSpawn = s.lastSpawn) ∧
    (5 ≤ s.aliveCount →
      (s.update now fb fm).enemies = s.enemies.filter (fun e => e.alive) ∧
      (s.update now fb fm).lastSpawn = s.lastSpawn) ∧
    (s.update now fb fm).enemies.length ≤ s.aliveCount + 1 ∧
    (now - s.lastSpawn > 6 ∧ s.aliveCount < 5 →
      (s.update now fb fm).enemies
        = s.enemies.filter (fun e => e.alive) ++ [freshEnemy fb fm] ∧
      (s.update now fb fm).lastSpawn = now) := by
  have key := update_enemies_eq s now fb fm
  have key2 := update_lastSpawn_eq s now fb fm
  refine ⟨?_, ?_, ?_, ?_⟩
  · intro hle
    have hg : ¬ (now - s.lastSpawn > s.spawnIntervalSec ∧ s.aliveCount < s.maxEnemies) := by
      rw [hint]
      exact fun hc => absurd hc.1 (not_lt.mpr hle)
    rw [key, key2, if_neg hg, if_neg hg]
    simp
  · intro hge
    have hg : ¬ (now - s.lastSpawn > s.spawnIntervalSec ∧ s.aliveCount < s.maxEnemies) := by
      rw [hmax]
      exact fun hc => absurd hc.2 (not_lt.mpr hge)
    rw [key, key2, if_neg hg, if_neg hg]
    simp
  · rw [key]
    by_cases hg : now - s.lastSpawn > s.spawnIntervalSec ∧ s.aliveCount < s.maxEnemies
    · rw [if_pos hg]
      simp [EnemyManager.aliveCount]
    · rw [if_neg hg]
      simp only [List.append_nil]
      simp [EnemyManager.aliveCount]
  · intro hsp
    have hg : now - s.lastSpawn > s.spawnIntervalSec ∧ s.aliveCount < s.maxEnemies :=
      ⟨by rw [hint]; exact hsp.1, by rw [hmax]; exact hsp.2⟩
    rw [key, key2, if_pos hg, if_pos hg]
    simp

/-- The manager of Scenario B: `maxEnemies = 5`, `spawnIntervalSec = 6`,
currently three alive enemies (the population dropped below the cap
mid-interval), last spawn at time 0. -/
def scenarioBManager : EnemyManager :=
  { enemies :=
      [{ bodyId := 1, meshId := 11, health := 40, alive := true },
       { bodyId := 2, meshId := 12, health := 15, alive := true },
       { bodyId := 3, meshId := 13, health := 40, alive := true }]
    scene := [11, 12, 13]
    world := [1, 2, 3]
    lastSpawn := 0
    maxEnemies := 5
    spawnIntervalSec := 6 }

/-- Witness for the C4 theorem at Scenario B, with the update pass at
`now = 4` (mid-interval). -/
theorem spawn_timer_no_early_spawn_no_burst_witness :
    ((4 : ℚ) - scenarioBManager.lastSpawn ≤ 6 →
      (scenarioBManager.update 4 20 21).enemies
        = scenarioBManager.enemies.filter (fun e => e.alive) ∧
      (scenarioBManager.update 4 20 21).lastSpawn = scenarioBManager.lastSpawn) ∧
    (5 ≤ scenarioBManager.aliveCount →
      (scenarioBManager.update 4 20 21).enemies
        = scenarioBManager.enemies.filter (fun e => e.alive) ∧
      (scenarioBManager.update 4 20 21).lastSpawn = scenarioBManager.lastSpawn) ∧
    (scenarioBManager.update 4 20 21).enemies.length
      ≤ scenarioBManager.aliveCount + 1 ∧
    ((4 : ℚ) - scenarioBManager.lastSpawn > 6 ∧ scenarioBManager.aliveCount < 5 →
      (scenarioBManager.update 4 20 21).enemies
        = scenarioBManager.enemies.filter (fun e => e.alive) ++ [freshEnemy 20 21] ∧
      (scenarioBManager.update 4 20 21).lastSpawn = 4) :=
  spawn_timer_no_early_spawn_no_burst scenarioBManager 4 20 21 rfl rfl

/-- The `Projectile` record of `ProjectileManager` (mesh and body again as
ids; the body's position/velocity are rendering/physics data the verified
claims do not read and are not modelled). -/
structure Projectile where
  meshId : Nat
  bodyId : Nat
  owner : Owner
  alive : Bool
  damage : Int
deriving DecidableEq, Repr

/-- `ProjectileManager` state: the projectile list, the scene and physics
world it adds meshes/bodies to, and the configured cap (default 10). -/
structure ProjectileManager where
  projectiles : List Projectile
  scene : List Nat
  world : List Nat
  maxBullets : Nat
deriving DecidableEq, Repr

/-- The owner filter accepted by `getActiveBullets`: `'player' | 'enemy' | 'all'`. -/
inductive OwnerFilter where
  | player
  | enemy
  | all
deriving DecidableEq, Repr

/-- `ProjectileManager.getActiveBullets` (lines 125-128). -/
def ProjectileManager.getActiveBullets (s : ProjectileManager) (f : OwnerFilter) :
    List Projectile :=
  match f with
  | OwnerFilter.all => s.projectiles.filter (fun p => p.alive)
  | OwnerFilter.player =>
      s.projectiles.filter (fun p => decide (p.owner = Owner.player) && p.alive)
  | OwnerFilter.enemy =>
      s.projectiles.filter (fun p => decide (p.owner = Owner.enemy) && p.alive)

/-- `ProjectileManager.spawnBullet` (lines 40-93).  The cap check runs only
for `owner === 'player'`: `active >= this.maxBullets` rejects with no side
effect.  Otherwise a mesh is added to the scene, a body (with velocity
`direction * speed`, kinematic data not modelled) to the world, and the
projectile is registered alive.  `freshMesh`/`freshBody` are the ids the
constructor calls would create. -/
def ProjectileManager.spawnBullet (s : ProjectileManager)
    (freshMesh freshBody : Nat) (owner : Owner) (damage : Int) :
    Bool × ProjectileManager :=
  if owner = Owner.player ∧
      s.maxBullets ≤
        (s.projectiles.filter (fun p => decide (p.owner = Owner.player) && p.alive)).length
  then (false, s)
  else
    (true,
     { s with
       projectiles := s.projectiles
         ++ [{ meshId := freshMesh, bodyId := freshBody, owner := owner,
               alive := true, damage := damage }]
       scene := s.scene ++ [freshMesh]
       world := s.world ++ [freshBody] })

/-- `ProjectileManager._despawn` (lines 109-117), the projectile named by
its index in the list (the source passes the aliased object): sets `alive`
to false, removes the body from the world and the mesh from the scene (both
no-ops when absent, as in cannon-es/three.js). -/
def ProjectileManager.despawnAt (s : ProjectileManager) (i : Nat) : ProjectileManager :=
  match s.projectiles.get? i with
  | none => s
  | some p =>
      { s with
        projectiles := s.projectiles.set i { p with alive := false }
        world := s.world.erase p.bodyId
        scene := s.scene.erase p.meshId }

/-- A manager whose enemy-owned alive-bullet count already equals the cap
(`maxBullets = 1`, one alive enemy bullet). -/
def enemyAtCapManager : ProjectileManager :=
  { projectiles :=
      [{ meshId := 5, bodyId := 6, owner := Owner.enemy, alive := true, damage := 10 }]
    scene := [5]
    world := [6]
    maxBullets := 1 }

/-- C2 counterexample: with the enemy owner's active-bullet count equal to
`maxBullets`, `spawnBullet` for the enemy owner still returns true and
mutates the manager — the cap check runs only for the player owner, so the
claim fails as stated for the enemy owner tag. -/
theorem spawn_cap_enemy_owner_counterexample :
    (enemyAtCapManager.getActiveBullets OwnerFilter.enemy).length
      = enemyAtCapManager.maxBullets ∧
    (enemyAtCapManager.spawnBullet 7 8 Owner.enemy 10).1 = true ∧
    ((enemyAtCapManager.spawnBullet 7 8 Owner.enemy 10).2.projectiles.length = 2 ∧
      (enemyAtCapManager.spawnBullet 7 8 Owner.enemy 10).2 ≠ enemyAtCapManager) := by
  decide

/-- C2 amended: for the player owner tag, whenever the player's count of
alive bullets already equals the configured `maxBullets` cap, `spawnBullet`
returns false and leaves the projectile collection, the physics world and
the scene unchanged (no side effect); the cap does not apply to
enemy-owned spawns. -/
theorem spawn_cap_player_rejects_no_side_effect (s : ProjectileManager)
    (fm fb : Nat) (damage : Int)
    (h : (s.getActiveBullets OwnerFilter.player).length = s.maxBullets) :
    (s.spawnBullet fm fb Owner.player damage).1 = false ∧
    (s.spawnBullet fm fb Owner.player damage).2 = s := by
  unfold ProjectileManager.getActiveBullets at h
  have hc : Owner.player = Owner.player ∧
      s.maxBullets ≤
        (s.projectiles.filter (fun p => decide (p.owner = Owner.player) && p.alive)).length :=
    ⟨rfl, le_of_eq h.symm⟩
  unfold ProjectileManager.spawnBullet
  rw [if_pos hc]
  exact ⟨rfl, rfl⟩

/-- A manager whose player-owned alive-bullet count equals the cap. -/
def playerAtCapManager : ProjectileManager :=
  { projectiles :=
      [{ meshId := 3, bodyId := 4, owner := Owner.player, alive := true, damage := 25 }]
    scene := [3]
    world := [4]
    maxBullets := 1 }

/-- Witness for the amended C2 theorem at a concrete manager whose player
bullet count sits at the cap. -/
theorem spawn_cap_player_rejects_no_side_effect_witness :
    (playerAtCapManager.spawnBullet 7 8 Owner.player 25).1 = false ∧
    (playerAtCapManager.spawnBullet 7 8 Owner.player 25).2 = playerAtCapManager :=
  spawn_cap_player_rejects_no_side_effect playerAtCapManager 7 8 25 (by decide)

/-- C6: despawning the projectile at index `i` twice produces exactly the
same manager state (alive flags, projectile collection, physics world,
scene — hence also every per-owner active-bullet count) as despawning it
once, provided the projectile's body and mesh occur at most once in the
world/scene lists, as entity construction guarantees: despawn of an
already-dead projectile is a no-op. -/
theorem despawn_twice_eq_once (s : ProjectileManager) (i : Nat) (p : Projectile)
    (hp : s.projectiles.get? i = some p)
    (hw : s.world.count p.bodyId ≤ 1) (hs : s.scene.count p.meshId ≤ 1) :
    (s.despawnAt i).despawnAt i = s.despawnAt i := by
  have hi : i < s.projectiles.length := List.get?_eq_some.mp hp |>.1
  unfold ProjectileManager.despawnAt
  rw [hp]
  have hp2 : (s.projectiles.set i { p with alive := false }).get? i
      = some { p with alive := false } := by
    rw [List.get?_set_eq, hp]
    simpa using hi
  simp only [hp2]
  have hwe : (s.world.erase p.bodyId).erase p.bodyId = s.world.erase p.bodyId := by
    apply List.erase_of_not_mem
    intro hmem
    have := List.count_pos_iff_mem.mpr hmem
    rw [List.count_erase_self] at this
    omega
  have hse : (s.scene.erase p.meshId).erase p.meshId = s.scene.erase p.meshId := by
    apply List.erase_of_not_mem
    intro hmem
    have := List.count_pos_iff_mem.mpr hmem
    rw [List.count_erase_self] at this
    omega
  simp [List.set_set, hwe, hse]

/-- Witness for the C6 theorem: the concrete at-cap manager, despawning its
single projectile (index 0) twice. -/
theorem despawn_twice_eq_once_witness :
    (playerAtCapManager.despawnAt 0).despawnAt 0 = playerAtCapManager.despawnAt 0 :=
  despawn_twice_eq_once playerAtCapManager 0
    { meshId := 3, bodyId := 4, owner := Owner.player, alive := true, damage := 25 }
    (by decide) (by decide) (by decide)

/-- A coin of `src/managers/CoinManager.ts` (the NON-PHYSICS version whose
line numbers the claims cite): a mesh (id and its position) and the
monotonic `collected` flag. -/
structure Coin where
  meshId : Nat
  pos : ℚ × ℚ × ℚ
  collected : Bool
deriving DecidableEq, Repr

/-- `CoinManager` state: the coin list, the scene meshes live in, the
configured `coinCount` (default 10), and the public counters. -/
structure CoinManager where
  coins : List Coin
  scene : List Nat
  coinCount : Nat
  coinsCollected : Nat
  score : Nat
deriving DecidableEq, Repr

/-- `CoinManager.spawnCoins` (lines 44-66): pushes `coinCount` fresh
uncollected coins, adding each mesh to the scene.  Mesh ids are generated
from `freshStart`; `posF` supplies the `Math.random` spawn positions. -/
def CoinManager.spawnCoins (s : CoinManager) (freshStart : Nat)
    (posF : Nat → ℚ × ℚ × ℚ) : CoinManager :=
  let fresh := (List.range s.coinCount).map
    (fun k => { meshId := freshStart + k, pos := posF k, collected := false : Coin })
  { s with
    coins := s.coins ++ fresh
    scene := s.scene ++ fresh.map (fun c => c.meshId) }

/-- The `CoinManager` constructor (lines 30-42): counters zero, then
`spawnCoins` into the given scene. -/
def CoinManager.init (scene0 : List Nat) (coinCount : Nat) (freshStart : Nat)
    (posF : Nat → ℚ × ℚ × ℚ) : CoinManager :=
  CoinManager.spawnCoins
    { coins := [], scene := scene0, coinCount := coinCount,
      coinsCollected := 0, score := 0 }
    freshStart posF

/-- `CoinManager.reset` (lines 98-108): removes every coin's mesh from the
scene, clears the list, zeroes `coinsCollected` and `score`, and respawns a
fresh full set. -/
def CoinManager.reset (s : CoinManager) (freshStart : Nat)
    (posF : Nat → ℚ × ℚ × ℚ) : CoinManager :=
  let scene1 := s.coins.foldl (fun sc c => sc.erase c.meshId) s.scene
  CoinManager.spawnCoins
    { s with coins := [], scene := scene1, coinsCollected := 0, score := 0 }
    freshStart posF

/-- The proximity test of `CoinManager.update` (lines 75-79):
`Math.sqrt(dx*dx + dy*dy + dz*dz) < 2.2`, written without the square root
(the two are equivalent on the non-negative reals). -/
def nearCoin (c : Coin) (p : ℚ × ℚ × ℚ) : Bool :=
  let dx := c.pos.1 - p.1
  let dy := c.pos.2.1 - p.2.1
  let dz := c.pos.2.2 - p.2.2
  decide (dx * dx + dy * dy + dz * dz < (22 / 10) * (22 / 10))

/-- The inner player loop of `CoinManager.update` (lines 70-95) for one
coin: an uncollected coin within the threshold of any tracked player
position is flagged collected (first match breaks; the effect on the coin
is the same). -/
def collectOne (players : List (ℚ × ℚ × ℚ)) (c : Coin) : Coin :=
  if c.collected = false ∧ players.any (fun p => nearCoin c p) then
    { c with collected := true }
  else c

/-- Whether the pass over the coins collects coin `c` this tick. -/
def collectsNow (players : List (ℚ × ℚ × ℚ)) (c : Coin) : Bool :=
  !c.collected && players.any (fun p => nearCoin c p)

/-- The coin loop of `CoinManager.update` (lines 70-95) with the loop-carried
state made explicit: returns the updated coin list, the scene after the
collected meshes are removed, and the updated `coinsCollected`/`score`. -/
def coinPass (players : List (ℚ × ℚ × ℚ)) :
    List Coin → List Nat → Nat → Nat → List Coin × List Nat × Nat × Nat
  | [], scene, collected, score => ([], scene, collected, score)
  | c :: cs, scene, collected, score =>
    if c.collected = true then
      let r := coinPass players cs scene collected score
      (c :: r.1, r.2)
    else if players.any (fun p => nearCoin c p) then
      let r := coinPass players cs (scene.erase c.meshId) (collected + 1) (score + 100)
      ({ c with collected := true } :: r.1, r.2)
    else
      let r := coinPass players cs scene collected score
      (c :: r.1, r.2)

/-- `CoinManager.update` (lines 68-96). -/
def CoinManager.update (s : CoinManager) (players : List (ℚ × ℚ × ℚ)) : CoinManager :=
  let r := coinPass players s.coins s.scene s.coinsCollected s.score
  { s with coins := r.1, scene := r.2.1, coinsCollected := r.2.2.1, score := r.2.2.2 }

/-- C5: for every prior collection state, `reset()` restores
`coinsCollected = 0`, `score = 0`, and a coin list of exactly `coinCount`
coins, all uncollected — the freshly-initialized state. -/
theorem coin_reset_roundtrip (s : CoinManager) (freshStart : Nat)
    (posF : Nat → ℚ × ℚ × ℚ) :
    (s.reset freshStart posF).coinsCollected = 0 ∧
    (s.reset freshStart posF).score = 0 ∧
    (s.reset freshStart posF).coins.length = s.coinCount ∧
    ((s.reset freshStart posF).coins.all (fun c => !c.collected)) = true := by
  unfold CoinManager.reset CoinManager.spawnCoins
  refine ⟨rfl, rfl, by simp, ?_⟩
  simp only [List.nil_append, List.all_eq_true, List.mem_map, List.mem_range]
  rintro c ⟨k, _, rfl⟩
  rfl

theorem coinPass_eq (players : List (ℚ × ℚ × ℚ)) (cs : List Coin)
    (scene : List Nat) (collected score : Nat) :
    coinPass players cs scene collected score
      = (cs.map (collectOne players),
         cs.foldl
           (fun sc c => if collectsNow players c = true then sc.erase c.meshId else sc)
           scene,
         collected + (cs.filter (collectsNow players)).length,
         score + 100 * (cs.filter (collectsNow players)).length) := by
  induction cs generalizing scene collected score with
  | nil => simp [coinPass]
  | cons c cs ih =>
    by_cases h1 : c.collected = true
    · have hnow : collectsNow players c = false := by
        simp [collectsNow, h1]
      simp [coinPass, h1, ih, collectOne, hnow]
    · have h1' : c.collected = false := by
        simpa using h1
      by_cases h2 : players.any (fun p => nearCoin c p) = true
      · have hnow : collectsNow players c = true := by
          simp [collectsNow, h1', h2]
        have hco : collectOne players c = { c with collected := true } := by
          simp [collectOne, h1', h2]
        simp only [coinPass, h1, h2, ih, hnow, hco, List.map_cons, List.foldl_cons,
          List.filter_cons, List.length_cons, if_true, if_false, ite_true, ite_false,
          Prod.mk.injEq]
        rw [if_neg Bool.false_ne_true]
        simp only [Prod.mk.injEq, true_and]
        omega
      · have hnow : collectsNow players c = false := by
          simp [collectsNow, h2]
        have hco : collectOne players c = c := by
          simp [collectOne, h2]
        simp [coinPass, h1, h2, ih, hnow, hco]

theorem collected_count_map (players : List (ℚ × ℚ × ℚ)) (cs : List Coin) :
    ((cs.map (collectOne players)).filter (fun c => c.collected)).length
      = (cs.filter (fun c => c.collected)).length
        + (cs.filter (collectsNow players)).length := by
  induction cs with
  | nil => simp
  | cons c cs ih =>
    by_cases h1 : c.collected = true
    · have hco : collectOne players c = c := by
        simp [collectOne, h1]
      have hnow : collectsNow players c = false := by
        simp [collectsNow, h1]
      simp [hco, hnow, h1, List.filter_cons, ih]
      omega
    · have h1' : c.collected = false := by
        simpa using h1
      by_cases h2 : players.any (fun p => nearCoin c p) = true
      · have hco : collectOne players c = { c with collected := true } := by
          simp [collectOne, h1', h2]
        have hnow : collectsNow players c = true := by
          simp [collectsNow, h1', h2]
        simp [hco, hnow, h1, List.filter_cons, ih]
        omega
      · have hco : collectOne players c = c := by
          simp [collectOne, h2]
        have hnow : collectsNow players c = false := by
          simp [collectsNow, h2]
        simp [hco, hnow, h1, List.filter_cons, ih]

/-- The CoinManager bookkeeping invariant of C10: the score is 100 points
per collected coin, and `coinsCollected` counts exactly the coins whose
`collected` flag is set. -/
def coinInv (s : CoinManager) : Prop :=
  s.score = 100 * s.coinsCollected ∧
  s.coinsCollected = (s.coins.filter (fun c => c.collected)).length

/-- C10: `score = 100 * coinsCollected` and `coinsCollected =` number of
collected-flagged coins hold after construction, after every `update`, and
after every `reset`; moreover `update` only flips `collected` from false to
true (an already-collected coin is never touched again), so each coin
contributes at most one collection event and +100 score over its
lifetime. -/
theorem coin_score_collected_invariant (scene0 : List Nat)
    (coinCount freshStart freshStart2 : Nat) (posF posF2 : Nat → ℚ × ℚ × ℚ)
    (s : CoinManager) (players : List (ℚ × ℚ × ℚ)) (hs : coinInv s) :
    coinInv (CoinManager.init scene0 coinCount freshStart posF) ∧
    coinInv (s.update players) ∧
    coinInv (s.reset freshStart2 posF2) ∧
    (s.update players).coins = s.coins.map (collectOne players) ∧
    (s.coins.all (fun c => !c.collected || decide (collectOne players c = c))) = true := by
  refine ⟨?_, ?_, ?_, ?_, ?_⟩
  · constructor
    · rfl
    · simp [CoinManager.init, CoinManager.spawnCoins, List.filter_map, Function.comp_def]
  · unfold CoinManager.update coinInv
    rw [coinPass_eq]
    constructor
    · simp only
      rw [hs.1]
      ring
    · simp only
      rw [collected_count_map, ← hs.2]
  · constructor
    · rfl
    · simp [CoinManager.reset, CoinManager.spawnCoins, List.filter_map, Function.comp_def]
  · unfold CoinManager.update
    rw [coinPass_eq]
  · simp only [List.all_eq_true]
    intro c _
    by_cases h1 : c.collected = true
    · have hco : collectOne players c = c := by
        simp [collectOne, h1]
      simp [hco]
    · simp [h1]

/-- A concrete mid-session CoinManager satisfying the bookkeeping
invariant: two coins, one collected, score 100. -/
def midSessionCoins : CoinManager :=
  { coins :=
      [{ meshId := 1, pos := (0, 0, 0), collected := true },
       { meshId := 2, pos := (9, 0, 9), collected := false }]
    scene := [2]
    coinCount := 2
    coinsCollected := 1
    score := 100 }

/-- Witness for the C10 theorem at the concrete mid-session manager, with
no tracked players this tick and fresh ids from 10/20. -/
theorem coin_score_collected_invariant_witness :
    coinInv (CoinManager.init [] 2 10 (fun _ => ((0 : ℚ), (0 : ℚ), (0 : ℚ)))) ∧
    coinInv (midSessionCoins.update []) ∧
    coinInv (midSessionCoins.reset 20 (fun _ => ((0 : ℚ), (0 : ℚ), (0 : ℚ)))) ∧
    (midSessionCoins.update []).coins = midSessionCoins.coins.map (collectOne []) ∧
    (midSessionCoins.coins.all
      (fun c => !c.collected || decide (collectOne [] c = c))) = true :=
  coin_score_collected_invariant [] 2 10 20 (fun _ => ((0 : ℚ), (0 : ℚ), (0 : ℚ)))
    (fun _ => ((0 : ℚ), (0 : ℚ), (0 : ℚ))) midSessionCoins [] (by constructor <;> rfl)

/-- The subset of `keys: Record<string, boolean>` that `CubePlayer.move`
reads: `Space`, `KeyW`, `KeyA`, `KeyS`, `KeyD`. -/
structure Keys where
  space : Bool
  keyW : Bool
  keyA : Bool
  keyS : Bool
  keyD : Bool
deriving DecidableEq, Repr

/-- The `CubePlayer` state `move` (part_000 lines 145-190) reads and
writes: the body's vertical position and velocity components, the facing
angle, and the jump bookkeeping flags.  `size = 2`. -/
structure CubePlayerState where
  posY : ℚ
  velX : ℚ
  velY : ℚ
  velZ : ℚ
  facingAngle : ℚ
  grounded : Bool
  jumpPrev : Bool
deriving DecidableEq, Repr

/-- The per-tick grounded computation (line 157):
`body.position.y <= baseY + GROUND_EPSILON && |body.velocity.y| < Y_STOP_THRESHOLD`
with `baseY = size = 2`, `GROUND_EPSILON = 0.18`, `Y_STOP_THRESHOLD = 0.35`. -/
def groundedCalc (st : CubePlayerState) : Bool :=
  decide (st.posY ≤ 2 + 0.18) && decide (|st.velY| < 0.35)

/-- `CubePlayer.move` (part_000 lines 145-190).  `sinq`/`cosq` stand for
`Math.sin`/`Math.cos` on the facing angle (the claims do not constrain
them).  The returned `Bool` records whether the upward-velocity write
`body.velocity.y = JUMP_VELOCITY` (line 163) executed during this call. -/
def CubePlayer.move (sinq cosq : ℚ → ℚ) (delta : ℚ) (keys : Keys)
    (st : CubePlayerState) : CubePlayerState × Bool :=
  let grounded := groundedCalc st
  let jumpPressed := keys.space
  let jumps := jumpPressed && !st.jumpPrev && grounded
  let velY1 := if jumps = true then (12 : ℚ) else st.velY
  let grounded1 := if jumps = true then false else grounded
  let facing1 := st.facingAngle + (if keys.keyA = true then 2.5 * delta else 0)
  let facing2 := facing1 - (if keys.keyD = true then 2.5 * delta else 0)
  let moveInput : ℚ :=
    (if keys.keyW = true then 1 else 0) - (if keys.keyS = true then 1 else 0)
  let desiredX := sinq facing2 * (40 * moveInput)
  let desiredZ := cosq facing2 * (40 * moveInput)
  ({ st with
      velY := velY1
      grounded := grounded1
      jumpPrev := jumpPressed
      facingAngle := facing2
      velX := st.velX + (desiredX - st.velX) * 0.15
      velZ := st.velZ + (desiredZ - st.velZ) * 0.15 },
   jumps)

/-- One animation frame as seen by the player: the physics step's output
for the body's vertical position/velocity, then the wall-clock delta and
the key snapshot `move` is called with. -/
structure Tick where
  delta : ℚ
  keys : Keys
  physPosY : ℚ
  physVelY : ℚ

/-- The physics step writes the body's vertical position/velocity before
the next `move` reads them. -/
def applyPhysics (st : CubePlayerState) (t : Tick) : CubePlayerState :=
  { st with posY := t.physPosY, velY := t.physVelY }

/-- Run a sequence of frames, counting how many times the upward jump
velocity was applied. -/
def runTicks (sinq cosq : ℚ → ℚ) (st : CubePlayerState) :
    List Tick → CubePlayerState × Nat
  | [] => (st, 0)
  | t :: ts =>
    let r := CubePlayer.move sinq cosq t.delta t.keys (applyPhysics st t)
    let rest := runTicks sinq cosq r.1 ts
    (rest.1, (if r.2 = true then 1 else 0) + rest.2)

theorem move_jumpPrev (sinq cosq : ℚ → ℚ) (delta : ℚ) (keys : Keys)
    (st : CubePlayerState) :
    (CubePlayer.move sinq cosq delta keys st).1.jumpPrev = keys.space := rfl

theorem move_no_jump_when_prev (sinq cosq : ℚ → ℚ) (delta : ℚ) (keys : Keys)
    (st : CubePlayerState) (hprev : st.jumpPrev = true) :
    (CubePlayer.move sinq cosq delta keys st).2 = false := by
  unfold CubePlayer.move
  simp [hprev]

theorem runTicks_held_prev_zero (sinq cosq : ℚ → ℚ) (ts : List Tick)
    (st : CubePlayerState) (hprev : st.jumpPrev = true)
    (hheld : (ts.all fun t => t.keys.space) = true) :
    (runTicks sinq cosq st ts).2 = 0 := by
  induction ts generalizing st with
  | nil => rfl
  | cons t ts ih =>
    simp only [List.all_cons, Bool.and_eq_true] at hheld
    have hprev2 : (applyPhysics st t).jumpPrev = true := hprev
    have hj := move_no_jump_when_prev sinq cosq t.delta t.keys (applyPhysics st t) hprev2
    have hnext : (CubePlayer.move sinq cosq t.delta t.keys (applyPhysics st t)).1.jumpPrev
        = true := by
      rw [move_jumpPrev]
      exact hheld.1
    simp only [runTicks, hj, if_neg Bool.false_ne_true]
    rw [ih _ hnext hheld.2]

/-- C7: while the jump key is held continuously, starting from a frame in
which the key was not previously down and the player is grounded, the
upward jump velocity (`velocity.y = 12`) is applied exactly once over the
whole held sequence — on that first frame — and never again until release;
conversely, if the key was already down before the sequence, holding it
applies no jump at all (a second jump requires release and re-press). -/
theorem jump_edge_triggered_once_per_press (sinq cosq : ℚ → ℚ)
    (t : Tick) (ts : List Tick) (st : CubePlayerState)
    (hprev : st.jumpPrev = false)
    (hheld : ((t :: ts).all fun t => t.keys.space) = true)
    (hground : groundedCalc (applyPhysics st t) = true) :
    (runTicks sinq cosq st (t :: ts)).2 = 1 ∧
    (CubePlayer.move sinq cosq t.delta t.keys (applyPhysics st t)).2 = true ∧
    (CubePlayer.move sinq cosq t.delta t.keys (applyPhysics st t)).1.velY = 12 ∧
    (runTicks sinq cosq { st with jumpPrev := true } (t :: ts)).2 = 0 := by
  simp only [List.all_cons, Bool.and_eq_true] at hheld
  have hprev2 : (applyPhysics st t).jumpPrev = false := hprev
  have hj : (CubePlayer.move sinq cosq t.delta t.keys (applyPhysics st t)).2 = true := by
    unfold CubePlayer.move
    simp [hprev2, hheld.1, hground]
  have hvel : (CubePlayer.move sinq cosq t.delta t.keys (applyPhysics st t)).1.velY = 12 := by
    unfold CubePlayer.move
    simp [hprev2, hheld.1, hground]
  have hnext : (CubePlayer.move sinq cosq t.delta t.keys (applyPhysics st t)).1.jumpPrev
      = true := by
    rw [move_jumpPrev]
    exact hheld.1
  refine ⟨?_, hj, hvel, ?_⟩
  · simp only [runTicks, hj, if_pos rfl]
    rw [runTicks_held_prev_zero sinq cosq ts _ hnext hheld.2]
    simp
  · exact runTicks_held_prev_zero sinq cosq (t :: ts) _ rfl
      (by simp [List.all_cons, hheld.1, hheld.2])

/-- The all-keys-up-but-Space snapshot. -/
def spaceHeld : Keys :=
  { space := true, keyW := false, keyA := false, keyS := false, keyD := false }

/-- Frame with Space held and the body resting on the ground. -/
def tickGrounded : Tick :=
  { delta := 1/60, keys := spaceHeld, physPosY := 2, physVelY := 0 }

/-- Frame with Space held and the body airborne mid-jump. -/
def tickAirborne : Tick :=
  { delta := 1/60, keys := spaceHeld, physPosY := 2.3, physVelY := 11 }

/-- A grounded resting player state with the jump key not previously down. -/
def restingPlayer : CubePlayerState :=
  { posY := 2, velX := 0, velY := 0, velZ := 0, facingAngle := 0,
    grounded := true, jumpPrev := false }

/-- Witness for the C7 theorem: three consecutive frames with Space held
(grounded, airborne, grounded again), starting from rest. -/
theorem jump_edge_triggered_once_per_press_witness :
    (runTicks (fun _ => 0) (fun _ => 1) restingPlayer
        (tickGrounded :: [tickAirborne, tickGrounded])).2 = 1 ∧
    (CubePlayer.move (fun _ => 0) (fun _ => 1) tickGrounded.delta tickGrounded.keys
        (applyPhysics restingPlayer tickGrounded)).2 = true ∧
    (CubePlayer.move (fun _ => 0) (fun _ => 1) tickGrounded.delta tickGrounded.keys
        (applyPhysics restingPlayer tickGrounded)).1.velY = 12 ∧
    (runTicks (fun _ => 0) (fun _ => 1) { restingPlayer with jumpPrev := true }
        (tickGrounded :: [tickAirborne, tickGrounded])).2 = 0 :=
  jump_edge_triggered_once_per_press (fun _ => 0) (fun _ => 1)
    tickGrounded [tickAirborne, tickGrounded] restingPlayer
    rfl (by decide) (by norm_num [groundedCalc, applyPhysics, tickGrounded, restingPlayer])

/-- `src/input/input-manager.ts`: the `ActionMap` table — the object's key
iteration order (`for...in`) plus the per-action bound-key lists. -/
structure ActionMap where
  actions : List String
  bind : String → List String

/-- `EXTENDED_ACTION_MAP` (input-manager.ts lines 7-16). -/
def EXTENDED_ACTION_MAP : ActionMap :=
  { actions := ["toggleCamera", "switchPlayer", "moveForward", "moveBackward",
                "moveLeft", "moveRight", "jump", "shoot"]
    bind := fun a =>
      if a = "toggleCamera" then ["KeyC"]
      else if a = "switchPlayer" then ["Tab"]
      else if a = "moveForward" then ["KeyW", "ArrowUp"]
      else if a = "moveBackward" then ["KeyS", "ArrowDown"]
      else if a = "moveLeft" then ["KeyA", "ArrowLeft"]
      else if a = "moveRight" then ["KeyD", "ArrowRight"]
      else if a = "jump" then ["Space"]
      else if a = "shoot" then ["KeyF", "Mouse0"]
      else [] }

/-- `Set.add` on an insertion-ordered set of strings. -/
def insertS (s : List String) (x : String) : List String :=
  if x ∈ s then s else s ++ [x]

/-- `Set.delete` on an insertion-ordered set of strings. -/
def removeS (s : List String) (x : String) : List String :=
  s.filter (fun y => decide (y ≠ x))

/-- `InputManager` state: the configured map, the held physical keys
(`pressedKeys`) and the per-action flag set (`actionPressed`). -/
structure InputManager where
  actionMap : ActionMap
  pressedKeys : List String
  actionPressed : List String

/-- The constructor's state (lines 18-29): both sets start empty. -/
def InputManager.initIM (am : ActionMap) : InputManager :=
  { actionMap := am, pressedKeys := [], actionPressed := [] }

/-- The `for (const action in this.actionMap)` loop of `onKeyDown`
(lines 33-37): add every action with `code` among its bound keys. -/
def addActionsFor (am : ActionMap) (code : String) (ap : List String) : List String :=
  am.actions.foldl (fun s a => if code ∈ am.bind a then insertS s a else s) ap

/-- The loop of `onKeyUp` (lines 42-46): delete every action with `code`
among its bound keys — regardless of other still-held bound keys. -/
def removeActionsFor (am : ActionMap) (code : String) (ap : List String) : List String :=
  am.actions.foldl (fun s a => if code ∈ am.bind a then removeS s a else s) ap

/-- A raw device event as the four listeners receive them. -/
inductive InputEvent where
  | keyDown (code : String)
  | keyUp (code : String)
  | mouseDown (button : Nat)
  | mouseUp (button : Nat)

/-- The four handlers (lines 31-68): `onKeyDown` also records the held key;
mouse handlers act only for button 0, mapped to the `Mouse0` pseudo-key
(and never touch `pressedKeys`). -/
def InputManager.processEvent (m : InputManager) : InputEvent → InputManager
  | InputEvent.keyDown code =>
      { m with pressedKeys := insertS m.pressedKeys code
               actionPressed := addActionsFor m.actionMap code m.actionPressed }
  | InputEvent.keyUp code =>
      { m with pressedKeys := removeS m.pressedKeys code
               actionPressed := removeActionsFor m.actionMap code m.actionPressed }
  | InputEvent.mouseDown button =>
      if button = 0 then
        { m with actionPressed := addActionsFor m.actionMap "Mouse0" m.actionPressed }
      else m
  | InputEvent.mouseUp button =>
      if button = 0 then
        { m with actionPressed := removeActionsFor m.actionMap "Mouse0" m.actionPressed }
      else m

/-- Process a sequence of device events. -/
def InputManager.runEvents (m : InputManager) (evs : List InputEvent) : InputManager :=
  evs.foldl (fun m ev => m.processEvent ev) m

/-- `InputManager.isKeyPressed` (lines 70-72). -/
def InputManager.isKeyPressed (m : InputManager) (code : String) : Bool :=
  decide (code ∈ m.pressedKeys)

/-- `InputManager.isActionActive` (lines 74-76): membership in the
`actionPressed` set. -/
def InputManager.isActionActive (m : InputManager) (a : String) : Bool :=
  decide (a ∈ m.actionPressed)

/-- The manager state after pressing `KeyW`, pressing `ArrowUp`, and then
releasing `KeyW` — both keys are bound to `moveForward` and `ArrowUp` is
still held. -/
def bothKeysThenReleaseOne : InputManager :=
  (((InputManager.initIM EXTENDED_ACTION_MAP).processEvent
      (InputEvent.keyDown "KeyW")).processEvent
      (InputEvent.keyDown "ArrowUp")).processEvent (InputEvent.keyUp "KeyW")

/-- C8 counterexample: with `ArrowUp` (bound to `moveForward`) still held,
releasing the other bound key `KeyW` leaves `isActionActive "moveForward"`
false — `onKeyUp` deletes the action whenever any bound key is released, so
the claimed iff (and in particular its releasing-one-of-two sub-claim)
fails on the code. -/
theorem action_active_iff_any_bound_key_held_counterexample :
    bothKeysThenReleaseOne.isKeyPressed "ArrowUp" = true ∧
    "ArrowUp" ∈ EXTENDED_ACTION_MAP.bind "moveForward" ∧
    bothKeysThenReleaseOne.isActionActive "moveForward" = false := by
  decide

/-- Whether an event touches one of action `a`'s bound keys: a key event
whose code is bound to `a`, or a button-0 mouse event when `Mouse0` is
bound to `a`. -/
def affects (am : ActionMap) (a : String) : InputEvent → Bool
  | InputEvent.keyDown c => decide (c ∈ am.bind a)
  | InputEvent.keyUp c => decide (c ∈ am.bind a)
  | InputEvent.mouseDown b => decide (b = 0) && decide ("Mouse0" ∈ am.bind a)
  | InputEvent.mouseUp b => decide (b = 0) && decide ("Mouse0" ∈ am.bind a)

/-- Whether an event is a press (key-down / mouse-down). -/
def isDownEvent : InputEvent → Bool
  | InputEvent.keyDown _ => true
  | InputEvent.mouseDown _ => true
  | InputEvent.keyUp _ => false
  | InputEvent.mouseUp _ => false

/-- Folds the "was the most recent event on one of `a`'s bound keys a
press?" bit through an event sequence, from initial value `b`. -/
def lastBoundEventDownFrom (am : ActionMap) (a : String) (b : Bool)
    (evs : List InputEvent) : Bool :=
  evs.foldl (fun st ev => if affects am a ev = true then isDownEvent ev else st) b

theorem mem_insertS (s : List String) (x a : String) :
    a ∈ insertS s x ↔ a ∈ s ∨ a = x := by
  unfold insertS
  by_cases h : x ∈ s
  · rw [if_pos h]
    constructor
    · exact Or.inl
    · rintro (ha | rfl)
      · exact ha
      · exact h
  · rw [if_neg h]
    simp [List.mem_append]

theorem mem_removeS (s : List String) (x a : String) :
    a ∈ removeS s x ↔ a ∈ s ∧ a ≠ x := by
  unfold removeS
  simp [List.mem_filter]

theorem mem_addActionsFor (am : ActionMap) (code : String) (a : String) :
    ∀ (acts : List String) (ap : List String),
      (a ∈ acts.foldl (fun s x => if code ∈ am.bind x then insertS s x else s) ap
        ↔ a ∈ ap ∨ (a ∈ acts ∧ code ∈ am.bind a)) := by
  intro acts
  induction acts with
  | nil => simp
  | cons x xs ih =>
    intro ap
    simp only [List.foldl_cons, ih, List.mem_cons]
    by_cases hx : code ∈ am.bind x
    · rw [if_pos hx, mem_insertS]
      constructor
      · rintro ((ha | rfl) | hrest)
        · exact Or.inl ha
        · exact Or.inr ⟨Or.inl rfl, hx⟩
        · exact Or.inr ⟨Or.inr hrest.1, hrest.2⟩
      · rintro (ha | ⟨(rfl | hxs), hb⟩)
        · exact Or.inl (Or.inl ha)
        · exact Or.inl (Or.inr rfl)
        · exact Or.inr ⟨hxs, hb⟩
    · rw [if_neg hx]
      constructor
      · rintro (ha | hrest)
        · exact Or.inl ha
        · exact Or.inr ⟨Or.inr hrest.1, hrest.2⟩
      · rintro (ha | ⟨(rfl | hxs), hb⟩)
        · exact Or.inl ha
        · exact absurd hb hx
        · exact Or.inr ⟨hxs, hb⟩

theorem mem_removeActionsFor (am : ActionMap) (code : String) (a : String) :
    ∀ (acts : List String) (ap : List String),
      (a ∈ acts.foldl (fun s x => if code ∈ am.bind x then removeS s x else s) ap
        ↔ a ∈ ap ∧ ¬ (a ∈ acts ∧ code ∈ am.bind a)) := by
  intro acts
  induction acts with
  | nil => simp
  | cons x xs ih =>
    intro ap
    simp only [List.foldl_cons, ih, List.mem_cons]
    by_cases hx : code ∈ am.bind x
    · rw [if_pos hx, mem_removeS]
      constructor
      · rintro ⟨⟨ha, hne⟩, hrest⟩
        refine ⟨ha, ?_⟩
        rintro ⟨(rfl | hxs), hb⟩
        · exact hne rfl
        · exact hrest ⟨hxs, hb⟩
      · rintro ⟨ha, hno⟩
        refine ⟨⟨ha, ?_⟩, ?_⟩
        · rintro rfl
          exact hno ⟨Or.inl rfl, hx⟩
        · rintro ⟨hxs, hb⟩
          exact hno ⟨Or.inr hxs, hb⟩
    · rw [if_neg hx]
      constructor
      · rintro ⟨ha, hrest⟩
        refine ⟨ha, ?_⟩
        rintro ⟨(rfl | hxs), hb⟩
        · exact hx hb
        · exact hrest ⟨hxs, hb⟩
      · rintro ⟨ha, hno⟩
        refine ⟨ha, ?_⟩
        rintro ⟨hxs, hb⟩
        exact hno ⟨Or.inr hxs, hb⟩

theorem processEvent_actionMap (m : InputManager) (ev : InputEvent) :
    (m.processEvent ev).actionMap = m.actionMap := by
  cases ev with
  | keyDown c => rfl
  | keyUp c => rfl
  | mouseDown b =>
    show (if b = 0 then _ else m).actionMap = m.actionMap
    by_cases h : b = 0
    · rw [if_pos h]
    · rw [if_neg h]
  | mouseUp b =>
    show (if b = 0 then _ else m).actionMap = m.actionMap
    by_cases h : b = 0
    · rw [if_pos h]
    · rw [if_neg h]

theorem mem_processEvent (m : InputManager) (a : String) (ev : InputEvent)
    (hmem : a ∈ m.actionMap.actions) :
    (a ∈ (m.processEvent ev).actionPressed
      ↔ (if affects m.actionMap a ev = true then isDownEvent ev = true
         else a ∈ m.actionPressed)) := by
  cases ev with
  | keyDown c =>
    show a ∈ addActionsFor m.actionMap c m.actionPressed ↔ _
    unfold addActionsFor
    rw [mem_addActionsFor]
    by_cases hb : c ∈ m.actionMap.bind a
    · simp [affects, hb, isDownEvent, hmem]
    · simp [affects, hb]
  | keyUp c =>
    show a ∈ removeActionsFor m.actionMap c m.actionPressed ↔ _
    unfold removeActionsFor
    rw [mem_removeActionsFor]
    by_cases hb : c ∈ m.actionMap.bind a
    · simp [affects, hb, isDownEvent, hmem]
    · simp [affects, hb, hmem]
  | mouseDown b =>
    by_cases h : b = 0
    · subst h
      show a ∈ (if (0 : Nat) = 0 then _ else m).actionPressed ↔ _
      rw [if_pos rfl]
      show a ∈ addActionsFor m.actionMap "Mouse0" m.actionPressed ↔ _
      unfold addActionsFor
      rw [mem_addActionsFor]
      by_cases hb : "Mouse0" ∈ m.actionMap.bind a
      · simp [affects, hb, isDownEvent, hmem]
      · simp [affects, hb]
    · show a ∈ (if b = 0 then _ else m).actionPressed ↔ _
      rw [if_neg h]
      simp [affects, h]
  | mouseUp b =>
    by_cases h : b = 0
    · subst h
      show a ∈ (if (0 : Nat) = 0 then _ else m).actionPressed ↔ _
      rw [if_pos rfl]
      show a ∈ removeActionsFor m.actionMap "Mouse0" m.actionPressed ↔ _
      unfold removeActionsFor
      rw [mem_removeActionsFor]
      by_cases hb : "Mouse0" ∈ m.actionMap.bind a
      · simp [affects, hb, isDownEvent, hmem]
      · simp [affects, hb, hmem]
    · show a ∈ (if b = 0 then _ else m).actionPressed ↔ _
      rw [if_neg h]
      simp [affects, h]

theorem runEvents_active_from (am : ActionMap) (a : String) (hmem : a ∈ am.actions) :
    ∀ (evs : List InputEvent) (m : InputManager), m.actionMap = am →
      ∀ (b : Bool), ((a ∈ m.actionPressed) ↔ b = true) →
      ((m.runEvents evs).isActionActive a = lastBoundEventDownFrom am a b evs) := by
  intro evs
  induction evs with
  | nil =>
    intro m hm b hb
    show decide (a ∈ m.actionPressed) = b
    cases b
    · simp only [decide_eq_false_iff_not]
      intro ha
      exact absurd (hb.mp ha) (by simp)
    · simp only [decide_eq_true_eq]
      exact hb.mpr rfl
  | cons ev evs ih =>
    intro m hm b hb
    have hm2 : (m.processEvent ev).actionMap = am := by
      rw [processEvent_actionMap, hm]
    have hmem2 : a ∈ m.actionMap.actions := by
      rw [hm]
      exact hmem
    have hb2 : (a ∈ (m.processEvent ev).actionPressed
        ↔ (if affects am a ev = true then isDownEvent ev else b) = true) := by
      rw [mem_processEvent m a ev hmem2, hm]
      by_cases haf : affects am a ev = true
      · rw [if_pos haf, if_pos haf]
      · rw [if_neg haf, if_neg haf]
        exact hb
    exact ih (m.processEvent ev) hm2 _ hb2

/-- C8 amended: `isActionActive(action)` is true iff the most recent event
touching one of the action's bound keys (keydown/keyup of a bound code, or
mousedown/mouseup of button 0 when `Mouse0` is bound) was a press rather
than a release.  In particular, a keyup of one bound key deactivates the
action even while another bound key for the same action is still held —
not "iff any bound key is currently held". -/
theorem action_active_iff_last_bound_event_down (am : ActionMap) (a : String)
    (evs : List InputEvent) (hmem : a ∈ am.actions) :
    ((InputManager.initIM am).runEvents evs).isActionActive a
      = lastBoundEventDownFrom am a false evs :=
  runEvents_active_from am a hmem evs (InputManager.initIM am) rfl false
    (by simp [InputManager.initIM])

/-- Witness for the amended C8 theorem at the concrete
press-press-release sequence on `moveForward`'s two bound keys. -/
theorem action_active_iff_last_bound_event_down_witness :
    ((InputManager.initIM EXTENDED_ACTION_MAP).runEvents
        [InputEvent.keyDown "KeyW", InputEvent.keyDown "ArrowUp",
          InputEvent.keyUp "KeyW"]).isActionActive "moveForward"
      = lastBoundEventDownFrom EXTENDED_ACTION_MAP "moveForward" false
          [InputEvent.keyDown "KeyW", InputEvent.keyDown "ArrowUp",
            InputEvent.keyUp "KeyW"] :=
  action_active_iff_last_bound_event_down EXTENDED_ACTION_MAP "moveForward"
    [InputEvent.keyDown "KeyW", InputEvent.keyDown "ArrowUp",
      InputEvent.keyUp "KeyW"] (by decide)

/-- Modelled from the spec: the game-loop Collision Resolver's player-health
handling is not among the source files under `src/` (only the HUD listener
of `player.health.changed` is present).  Per the spec, player health is an
integer clamped to [0, 100]; an incoming enemy-projectile hit decrements it
by the projectile's damage and clamps at 0. -/
def playerHit (health damage : Int) : Int :=
  max (health - damage) 0

/-- Modelled from the spec: player health after a sequence of incoming
enemy-projectile hits, starting from the initial 100. -/
def playerHealthAfter (hits : List Int) : Int :=
  hits.foldl playerHit 100

theorem foldl_playerHit_bounds (hits : List Int) :
    ∀ (start : Int), 0 ≤ start → start ≤ 100 →
      (hits.all fun d => decide (0 ≤ d)) = true →
      0 ≤ hits.foldl playerHit start ∧ hits.foldl playerHit start ≤ 100 := by
  induction hits with
  | nil =>
    intro start h0 h100 _
    exact ⟨h0, h100⟩
  | cons d ds ih =>
    intro start h0 h100 hall
    simp only [List.all_cons, Bool.and_eq_true, decide_eq_true_eq] at hall
    refine ih (playerHit start d) (le_max_right _ _) ?_ hall.2
    exact max_le (by omega) (by omega)

/-- C9: starting from 100, two enemy-bullet hits of damage 10 leave health
at 80 and a further hit of damage 90 sets health to exactly 0; and over
every sequence of incoming hits with non-negative damage, health stays an
integer within [0, 100] — never negative. -/
theorem player_health_clamped_zero_to_hundred (hits : List Int)
    (hpos : (hits.all fun d => decide (0 ≤ d)) = true) :
    playerHealthAfter [10, 10] = 80 ∧
    playerHealthAfter [10, 10, 90] = 0 ∧
    0 ≤ playerHealthAfter hits ∧ playerHealthAfter hits ≤ 100 := by
  refine ⟨by decide, by decide, ?_⟩
  exact foldl_playerHit_bounds hits 100 (by omega) (by omega) hpos

/-- Witness for the C9 theorem at the concrete Scenario C hit sequence. -/
theorem player_health_clamped_zero_to_hundred_witness :
    playerHealthAfter [10, 10] = 80 ∧
    playerHealthAfter [10, 10, 90] = 0 ∧
    0 ≤ playerHealthAfter [10, 10, 90] ∧ playerHealthAfter [10, 10, 90] ≤ 100 :=
  player_health_clamped_zero_to_hundred [10, 10, 90] (by decide)
